import Mathlib

/-!
# Verification of the bespoke/cli module manager core

Shallow embedding of `src/module/module.go` (package `module`) together with
the parts of the filesystem and network environment that its operations
observe.  Go maps are embedded as association lists, the `(value, ok)`
return convention as `Option`, Go `error` results as `Except String`, and a
Go panic (out-of-range slice index on a nil regexp match) as the `none` /
`crash` outcome of the embedded function.

A central point of the embedding, documented at each use site: Go's
`getAllModuleVersions` returns the `ByVersions` struct **by value**.  The
struct copy contains a fresh `Enabled` string field but shares the
underlying table of the `Metadatas` map with the vault it was read from.
Consequently a write to the copy's `Enabled` field is invisible to the
vault that is later serialized, while `delete`/insert operations performed
on the copy's `Metadatas` map are visible.  The embedding reproduces this
faithfully: `Enabled` writes on the copy are dropped, and aliased map
operations are applied to the vault via `Vault.updateMetadatas`.
-/

set_option maxRecDepth 100000

namespace Bespoke

abbrev Author := String

abbrev Name := String

abbrev Version := String

/-- Go: `type URL = string`. -/
abbrev URL := String

/-- Association-list lookup, embedding Go's `m[k]` two-result read on a map. -/
def alGet {α β : Type} [DecidableEq α] (m : List (α × β)) (k : α) : Option β :=
  (m.find? (fun p => p.1 = k)).map (fun p => p.2)

/-- Association-list insert/overwrite, embedding Go's `m[k] = v`. -/
def alPut {α β : Type} [DecidableEq α] (m : List (α × β)) (k : α) (v : β) :
    List (α × β) :=
  if (m.find? (fun p => p.1 = k)).isSome then
    m.map (fun p => if p.1 = k then (p.1, v) else p)
  else
    m ++ [(k, v)]

/-- Association-list removal, embedding Go's `delete(m, k)` (a no-op when the
key is absent). -/
def alErase {α β : Type} [DecidableEq α] (m : List (α × β)) (k : α) :
    List (α × β) :=
  m.filter (fun p => ¬ p.1 = k)

/-- Splits a character list at each separator character, keeping empty
segments (the split used by the anchored segment regexes below). -/
def splitSeg (sep : Char) : List Char → List Char → List (List Char)
  | [], acc => [acc.reverse]
  | c :: rest, acc =>
    if c = sep then acc.reverse :: splitSeg sep rest []
    else splitSeg sep rest (c :: acc)

/-- Splits a string into its slash-separated segments, empty segments
included. -/
def splitSlash (s : String) : List String :=
  (splitSeg '/' s.data []).map List.asString

/-- Go struct `ModuleIdentifier` with embedded `Author` and `Name`. -/
structure ModuleIdentifier where
  Author : Author
  Name : Name
deriving DecidableEq

/-- Go struct `StoreIdentifier` embedding a `ModuleIdentifier` and a
`Version`. -/
structure StoreIdentifier where
  mid : ModuleIdentifier
  Version : Version
deriving DecidableEq

/-- Go struct `MetadataURL` with json fields `local` and `remote`. -/
structure MetadataURL where
  Local : URL
  Remote : URL
deriving DecidableEq

/-- Go struct `ByVersions`: the per-module version set, `Enabled` plus the
`Metadatas` map. -/
structure ByVersions where
  Enabled : Version
  Metadatas : List (Version × MetadataURL)
deriving DecidableEq

/-- Go `type ByNames = map[Name]ByVersions`. -/
abbrev ByNames := List (Name × ByVersions)

/-- Go `type ByAuthors = map[Author]ByNames`. -/
abbrev ByAuthors := List (Author × ByNames)

/-- Go struct `Vault`: the persisted manifest. -/
structure Vault where
  Modules : ByAuthors
deriving DecidableEq

/-- Go struct `Metadata`: the remote module metadata document. -/
structure MetadataEntries where
  Js : String
  Css : String
  Mixin : String
deriving DecidableEq

structure Metadata where
  Name : String
  Version : String
  Authors : List String
  Description : String
  Tags : List String
  Entries : MetadataEntries
  Dependencies : List String
  SpotifyVersions : String
deriving DecidableEq

/-- Go: `func (m *Metadata) getAuthor() string` returns `m.Authors[0]`; this
Go slice index panics when `Authors` is empty, embedded as `none`. -/
def Metadata.getAuthor (m : Metadata) : Option String :=
  m.Authors.head?

/-- Go: `getModuleIdentifier`; `none` embeds the panic from an empty
`Authors` list. -/
def Metadata.getModuleIdentifier (m : Metadata) : Option ModuleIdentifier :=
  match m.getAuthor with
  | none => none
  | some a => some ⟨a, m.Name⟩

/-- Go: `getStoreIdentifier`; `none` embeds the panic from an empty
`Authors` list. -/
def Metadata.getStoreIdentifier (m : Metadata) : Option StoreIdentifier :=
  match m.getModuleIdentifier with
  | none => none
  | some mid => some ⟨mid, m.Version⟩

/-! ## Identifier parsing (module.go lines 194-226)

`moduleIdentifierRe` is the anchored regular expression over two non-empty
slash-free groups, `storeIdentifierRe` the anchored expression over an
`author/name` group and a possibly empty version group.
`FindStringSubmatch` returns the full match at index 0 followed by the
capture groups, or nil if the expression does not match; indexing a nil
slice panics, embedded as `none`. -/

/-- Embeds `moduleIdentifierRe.FindStringSubmatch`: on a match the result
list is the full match followed by the author and name groups. -/
def moduleIdentifierMatch (s : String) : Option (List String) :=
  match splitSlash s with
  | [a, n] => if a.isEmpty ∨ n.isEmpty then none else some [s, a, n]
  | _ => none

/-- Embeds `NewModuleIdentifier` (module.go:196-202).  The Go code reads
`parts[0]` (the full match) into `Author` and `parts[1]` (the author group)
into `Name`; on a nil match the slice index panics, embedded as `none`. -/
def NewModuleIdentifier (identifier : String) : Option ModuleIdentifier :=
  match moduleIdentifierMatch identifier with
  | none => none
  | some parts => some ⟨parts.getD 0 "", parts.getD 1 ""⟩

/-- Embeds `storeIdentifierRe.FindStringSubmatch`: on a match the result is
the full match, then the `author/name` group, then the version group. -/
def storeIdentifierMatch (s : String) : Option (List String) :=
  match splitSlash s with
  | [a, n, v] =>
    if a.isEmpty ∨ n.isEmpty then none else some [s, a ++ "/" ++ n, v]
  | _ => none

/-- Embeds `NewStoreIdentifier` (module.go:220-226).  The Go code feeds
`parts[0]` (the full `author/name/version` match) to `NewModuleIdentifier`
and reads `parts[1]` (the `author/name` group) into `Version`; the nested
call's nil match panics, embedded as `none`. -/
def NewStoreIdentifier (identifier : String) : Option StoreIdentifier :=
  match storeIdentifierMatch identifier with
  | none => none
  | some parts =>
    match NewModuleIdentifier (parts.getD 0 "") with
    | none => none
    | some mid => some ⟨mid, parts.getD 1 ""⟩

/-! ## Paths (module.go lines 204-238)

`paths.ConfigPath` comes from the external `paths` package. -/

/-- Modelled from the spec: the process-wide configuration path discovered by
the external `paths` collaborator (out of core scope); an arbitrary fixed
directory. -/
def ConfigPath : String := "bespoke-config"

/-- Embeds `filepath.Join`: empty components are dropped and the rest joined
with the separator (path cleaning of dot segments is irrelevant for the
component strings that occur here). -/
def filepathJoin (parts : List String) : String :=
  String.intercalate "/" (parts.filter (fun s => ¬ s.isEmpty))

def modulesFolder : String := filepathJoin [ConfigPath, "modules"]

def storeFolder : String := filepathJoin [ConfigPath, "store"]

/-- Embeds `(mi *ModuleIdentifier) toPath`: `path.Join(Author, Name)`. -/
def ModuleIdentifier.toPath (mi : ModuleIdentifier) : String :=
  filepathJoin [mi.Author, mi.Name]

/-- Embeds `(mi *ModuleIdentifier) toFilePath`: the module-path symlink
location `modulesFolder/Author/Name`. -/
def ModuleIdentifier.toFilePath (mi : ModuleIdentifier) : String :=
  filepathJoin [modulesFolder, mi.Author, mi.Name]

/-- Embeds `(si *StoreIdentifier) toPath`. -/
def StoreIdentifier.toPath (si : StoreIdentifier) : String :=
  filepathJoin [si.mid.Author, si.mid.Name, si.Version]

/-- Embeds `(si *StoreIdentifier) toFilePath`: the per-version store
directory `storeFolder/Author/Name/Version`. -/
def StoreIdentifier.toFilePath (si : StoreIdentifier) : String :=
  filepathJoin [storeFolder, si.mid.Author, si.mid.Name, si.Version]

/-! ## GitHub version resolver (module.go lines 75-109 and 293-345) -/

/-- Go struct `GithubPathVersion`: a string-discriminated record, not a sum
type; the `type_` field embeds the Go field named with two leading
underscores. -/
structure GithubPathVersion where
  type_ : String
  commit : String
  tag : String
  branch : String
deriving DecidableEq

/-- Go struct `VersionedGithubPath`. -/
structure VersionedGithubPath where
  owner : String
  repo : String
  version : GithubPathVersion
  path : String
deriving DecidableEq

/-- Embeds `getRepoArchiveLink` (module.go:91-109): the switch on the
discriminator string, with no default case, then the suffix. -/
def VersionedGithubPath.getRepoArchiveLink (ghp : VersionedGithubPath) : String :=
  let u := "https://github.com/" ++ ghp.owner ++ "/" ++ ghp.repo ++ "/archive/"
  let u :=
    if ghp.version.type_ = "commit" then u ++ ghp.version.commit
    else if ghp.version.type_ = "tag" then u ++ "refs/tags/" ++ ghp.version.tag
    else if ghp.version.type_ = "branch" then u ++ "refs/heads/" ++ ghp.version.branch
    else u
  u ++ ".tar.gz"

/-- Hexadecimal digit value, embedding the byte-level decoding of
`url.QueryUnescape`. -/
def hexVal (c : Char) : Option Nat :=
  if '0' ≤ c ∧ c ≤ '9' then some (c.toNat - '0'.toNat)
  else if 'a' ≤ c ∧ c ≤ 'f' then some (c.toNat - 'a'.toNat + 10)
  else if 'A' ≤ c ∧ c ≤ 'F' then some (c.toNat - 'A'.toNat + 10)
  else none

/-- Embeds `url.QueryUnescape` character by character: a percent sign must
be followed by two hexadecimal digits (else the Go call errors, embedded as
`none`), and a plus sign decodes to a space.  Multi-byte UTF-8 percent
sequences are out of scope for the version strings considered here. -/
def queryUnescapeChars : List Char → Option (List Char)
  | [] => some []
  | '%' :: a :: b :: rest =>
    match hexVal a, hexVal b with
    | some ha, some hb =>
      (queryUnescapeChars rest).map (fun cs => Char.ofNat (16 * ha + hb) :: cs)
    | _, _ => none
  | '%' :: _ => none
  | '+' :: rest => (queryUnescapeChars rest).map (fun cs => ' ' :: cs)
  | c :: rest => (queryUnescapeChars rest).map (fun cs => c :: cs)

def queryUnescape (s : String) : Option String :=
  (queryUnescapeChars s.data).map List.asString

/-- Embeds `githubRawRe.FindStringSubmatch` on a raw-content URL, producing
the owner, repo, version-ref and dirname groups.  The owner, repo and ref
groups are non-empty and slash-free; the dirname group is everything between
the ref and the final non-empty basename segment (the basename group itself
is not used by the caller).  The Go expression is unanchored at the front;
the URLs considered here start with the literal scheme. -/
def githubRawMatch (u : String) : Option (String × String × String × String) :=
  let pre := "https://raw.githubusercontent.com/"
  if pre.data.isPrefixOf u.data then
    match splitSlash (u.data.drop pre.data.length).asString with
    | owner :: repo :: v :: tail =>
      match tail.getLast? with
      | some basename =>
        if owner.isEmpty ∨ repo.isEmpty ∨ v.isEmpty ∨ basename.isEmpty then none
        else some (owner, repo, v, String.intercalate "/" tail.dropLast)
      | none => none
    | _ => none
  else none

/-- Embeds `parseGithubRawLink` (module.go:293-345).  The branch listing
performed by `client.Repositories.ListBranches` is the one network call; its
outcome is passed in as `branches` (an error embeds a failed round trip).
Note the order faithfully follows the source: the branch listing happens
before any classification, so a listing failure aborts the resolution even
when the ref is a 40-character commit hash.  The 40-character test is Go's
`len`, i.e. byte length, and does not check hexness. -/
def parseGithubRawLink (branches : Except String (List String))
    (metadataURL : URL) : Except String VersionedGithubPath :=
  match githubRawMatch metadataURL with
  | none => .error "URL cannot be parsed"
  | some (owner, repo, v, path) =>
    match branches with
    | .error e => .error e
    | .ok branchNames =>
      if v.utf8ByteSize = 40 then
        .ok ⟨owner, repo, ⟨"commit", v, "", ""⟩, path⟩
      else if branchNames.contains v then
        .ok ⟨owner, repo, ⟨"branch", "", "", v⟩, path⟩
      else
        match queryUnescape v with
        | none => .error "invalid URL escape"
        | some tag => .ok ⟨owner, repo, ⟨"tag", "", tag, ""⟩, path⟩

/-! ## Vault lookups and aliased updates (module.go lines 130-183) -/

/-- Embeds `getAllModuleVersions` (module.go:130-137): a two-level map
lookup returning the `ByVersions` struct by value together with the `ok`
flag, embedded as `Option`.  The returned struct shares its `Metadatas` map
table with the vault (see the file header). -/
def Vault.getAllModuleVersions (v : Vault) (identifier : ModuleIdentifier) :
    Option ByVersions :=
  match alGet v.Modules identifier.Author with
  | none => none
  | some names => alGet names identifier.Name

/-- Applies an update function to the `Metadatas` list of the entry for
`identifier`, if that entry exists.  This embeds a Go map operation
performed through the struct copy returned by `getAllModuleVersions`: the
copy's map header aliases the vault's table, so the operation is visible in
the vault, whereas a write to the copy's `Enabled` field is not. -/
def Vault.updateMetadatas (v : Vault) (identifier : ModuleIdentifier)
    (f : List (Version × MetadataURL) → List (Version × MetadataURL)) : Vault :=
  ⟨v.Modules.map (fun ap =>
    if ap.1 = identifier.Author then
      (ap.1, ap.2.map (fun np =>
        if np.1 = identifier.Name then
          (np.1, ⟨np.2.Enabled, f np.2.Metadatas⟩)
        else np))
    else ap)⟩

/-- Embeds `getModule` (module.go:163-171); `none` on the outer layer embeds
the panic from an empty `Authors` list inside `getModuleIdentifier`. -/
def Vault.getModule (v : Vault) (m : Metadata) : Option (Option MetadataURL) :=
  match m.getModuleIdentifier with
  | none => none
  | some mid =>
    match v.getAllModuleVersions mid with
    | none => some none
    | some versions => some (alGet versions.Metadatas m.Version)

/-- Embeds `setModule` (module.go:173-183).  An empty version is rejected
first; then the module must already be present; the actual write
`versions.Metadatas[Version] = module` goes through the aliased map and is
therefore applied to the vault.  The outer `none` embeds the panic from an
empty `Authors` list. -/
def Vault.setModule (v : Vault) (m : Metadata) (module : MetadataURL) :
    Option (Vault × Bool) :=
  if m.Version.isEmpty then some (v, false)
  else
    match m.getModuleIdentifier with
    | none => none
    | some mid =>
      match v.getAllModuleVersions mid with
      | none => some (v, false)
      | some _ =>
        some (v.updateMetadatas mid (fun ms => alPut ms m.Version module), true)

/-! ## The world: vault file, symlinks, store directories

The operations below read and write `vault.json`, create and remove
symlinks under `modulesFolder`, and create and remove extracted trees under
`storeFolder`.  The world records the observable pieces: the vault file
content (absent on first run), the set of symlinks as a map from link path
to target path, and the set of store directory paths present. -/

structure World where
  vaultFile : Option Vault
  links : List (String × String)
  store : List String
deriving DecidableEq

/-- Embeds `GetVault` (module.go:240-250): when the file is absent the
caller receives a zero-value empty vault together with the open error
(decoding errors of an existing file are not modelled: the file is always
written by `SetVault` below). -/
def GetVault (w : World) : Vault × Option String :=
  match w.vaultFile with
  | none => (⟨[]⟩, some "open vault.json: no such file or directory")
  | some v => (v, none)

/-- Embeds `SetVault` (module.go:252-260): marshalling of this data never
fails and the write is modelled as succeeding, replacing the file. -/
def SetVault (w : World) (v : Vault) : World × Except String Unit :=
  ({ w with vaultFile := some v }, .ok ())

/-- Embeds `os.Symlink(target, link)`: fails when something already exists
at the link path, otherwise records the link.  The second component is the
success flag. -/
def osSymlink (links : List (String × String)) (target link : String) :
    List (String × String) × Bool :=
  if (links.find? (fun p => p.1 = link)).isSome then (links, false)
  else (links ++ [(link, target)], true)

/-- Embeds `createSymlink` (module.go:441-443): `os.Symlink` from the store
path to the module path, with the returned error discarded — on failure
(link path already occupied) the old link survives unchanged. -/
def createSymlink (w : World) (identifier : StoreIdentifier) : World :=
  { w with
    links := (osSymlink w.links identifier.toFilePath identifier.mid.toFilePath).1 }

/-- Embeds `destroySymlink` (module.go:445-447): `os.Remove` on the module
path, error discarded. -/
def destroySymlink (w : World) (identifier : ModuleIdentifier) : World :=
  { w with links := w.links.filter (fun p => ¬ p.1 = identifier.toFilePath) }

/-- Embeds `deleteModuleInStore` (module.go:364-366): `os.RemoveAll`, which
succeeds also when the path does not exist. -/
def deleteModuleInStore (w : World) (identifier : StoreIdentifier) :
    World × Except String Unit :=
  ({ w with store := w.store.filter (fun p => ¬ p = identifier.toFilePath) }, .ok ())

/-! ## Lifecycle operations (module.go lines 262-439) -/

/-- Outcome of an operation that can also panic. -/
inductive Outcome where
  | ok : Outcome
  | fail : String → Outcome
  | crash : Outcome
deriving DecidableEq

/-- Embeds `ToggleModuleInVault` (module.go:374-396).  The loaded vault's
`ByVersions` struct is copied by `getAllModuleVersions`; the subsequent
writes `modules.Enabled = identifier.Version` and `modules.Enabled = ""`
mutate only that copy, so the vault later passed to `SetVault` is the
loaded one unchanged.  The symlink side effects do happen. -/
def ToggleModuleInVault (w : World) (identifier : StoreIdentifier)
    (enabled : Bool) : World × Except String Unit :=
  match GetVault w with
  | (_, some e) => (w, .error e)
  | (vault, none) =>
    match vault.getAllModuleVersions identifier.mid with
    | none => (w, .error ("no modules with identifier " ++ identifier.mid.toPath))
    | some modules =>
      if enabled then
        let w := createSymlink w identifier
        SetVault w vault
      else if modules.Enabled = identifier.Version then
        let w := destroySymlink w identifier.mid
        SetVault w vault
      else
        (w, .ok ())

/-- Embeds `RemoveModuleInVault` (module.go:398-411), with `MutateVault`
(module.go:262-273) inlined around the mutation closure.  Inside the
closure, `modules.Enabled = ""` writes to the struct copy and is lost,
while `delete(modules.Metadatas, identifier.Version)` goes through the
aliased map and is persisted; `destroySymlink` runs when the targeted
version is the loaded `Enabled` value. -/
def RemoveModuleInVault (w : World) (identifier : StoreIdentifier) :
    World × Except String Unit :=
  match GetVault w with
  | (_, some e) => (w, .error e)
  | (vault, none) =>
    match vault.getAllModuleVersions identifier.mid with
    | none => (w, .error "failed to mutate vault")
    | some modules =>
      let w :=
        if modules.Enabled = identifier.Version then destroySymlink w identifier.mid
        else w
      let vault := vault.updateMetadatas identifier.mid
        (fun ms => alErase ms identifier.Version)
      SetVault w vault

/-- Embeds `AddModuleInVault` (module.go:368-372): `MutateVault` around
`setModule`.  `Outcome.crash` embeds the panic of `setModule` on an empty
`Authors` list. -/
def AddModuleInVault (w : World) (metadata : Metadata) (module : MetadataURL) :
    World × Outcome :=
  match GetVault w with
  | (_, some e) => (w, .fail e)
  | (vault, none) =>
    match vault.setModule metadata module with
    | none => (w, .crash)
    | some (_, false) => (w, .fail "failed to mutate vault")
    | some (vault, true) =>
      match SetVault w vault with
      | (w, .ok _) => (w, .ok)
      | (w, .error e) => (w, .fail e)

/-- Embeds `DeleteModule` (module.go:434-439). -/
def DeleteModule (w : World) (identifier : StoreIdentifier) :
    World × Except String Unit :=
  match RemoveModuleInVault w identifier with
  | (w, .error e) => (w, .error e)
  | (w, .ok _) => deleteModuleInStore w identifier

/-! ## Download and install (module.go lines 275-291, 347-362, 413-432)

The network environment is passed in as oracles: `branches` is the outcome
of the one branch-listing call, `httpGet` maps a URL to the outcome of an
HTTP GET (transport errors only — Go's `http.Get` returns a response for
any status code), and `untar` is the outcome of `archive.UnTarGZ` on a
given body. -/

structure HttpResponse where
  statusCode : Nat
  body : String
deriving DecidableEq

/-- Embeds `downloadModuleInStore` (module.go:347-362).  The second
component records whether extraction (`archive.UnTarGZ`) was attempted.
The status code of the archive response is never inspected by the source:
the body is handed to extraction whatever the status was.  On successful
extraction the store directory for the target identifier exists. -/
def downloadModuleInStore (branches : Except String (List String))
    (httpGet : String → Except String HttpResponse)
    (untar : String → Except String Unit)
    (metadataURL : URL) (storeIdentifier : StoreIdentifier) (w : World) :
    World × (Bool × Except String Unit) :=
  match parseGithubRawLink branches metadataURL with
  | .error e => (w, (false, .error e))
  | .ok githubPath =>
    match httpGet githubPath.getRepoArchiveLink with
    | .error e => (w, (false, .error e))
    | .ok res =>
      match untar res.body with
      | .error e => (w, (true, .error e))
      | .ok _ =>
        ({ w with store := w.store ++ [storeIdentifier.toFilePath] },
         (true, .ok ()))

/-- Embeds `InstallModuleMURL` (module.go:413-432).  `fetchMeta` is the
outcome of `fetchRemoteMetadata` (transport plus JSON decoding).
`Outcome.crash` embeds the panic of `getStoreIdentifier` when the fetched
metadata has an empty `Authors` list — this happens before the download.
Validation of `Version` happens only inside `setModule` at the very end. -/
def InstallModuleMURL (branches : Except String (List String))
    (httpGet : String → Except String HttpResponse)
    (untar : String → Except String Unit)
    (fetchMeta : Except String Metadata)
    (metadataURL : URL) (w : World) : World × Outcome :=
  match fetchMeta with
  | .error e => (w, .fail e)
  | .ok metadata =>
    match metadata.getStoreIdentifier with
    | none => (w, .crash)
    | some storeIdentifier =>
      match downloadModuleInStore branches httpGet untar metadataURL
          storeIdentifier w with
      | (w, (_, .error e)) => (w, .fail e)
      | (w, (_, .ok _)) =>
        match metadata.getModuleIdentifier with
        | none => (w, .crash)
        | some moduleIdentifier =>
          AddModuleInVault w metadata
            ⟨"/modules/" ++ moduleIdentifier.toPath ++ "/metadata.json",
             metadataURL⟩

/-! ## Invariants (spec section 3) -/

/-- Invariant I1 for one version set: `Enabled` is either empty or a key of
the version mapping. -/
def ByVersions.checkI1 (bv : ByVersions) : Bool :=
  bv.Enabled.isEmpty || (alGet bv.Metadatas bv.Enabled).isSome

/-- Invariant I1 over a whole vault. -/
def Vault.checkI1 (v : Vault) : Bool :=
  v.Modules.all (fun ap => ap.2.all (fun np => np.2.checkI1))

/-! ## Concrete fixtures -/

/-- A module with two installed versions, version 1.0 enabled. -/
def demoBV : ByVersions :=
  ⟨"1.0", [("1.0", ⟨"local1", "remote1"⟩), ("2.0", ⟨"local2", "remote2"⟩)]⟩

def demoVault : Vault := ⟨[("acme", [("widgets", demoBV)])]⟩

def mid0 : ModuleIdentifier := ⟨"acme", "widgets"⟩

def sid1 : StoreIdentifier := ⟨mid0, "1.0"⟩

def sid2 : StoreIdentifier := ⟨mid0, "2.0"⟩

/-- A world in which the demo vault is on disk, the module-path symlink
points at version 1.0's store path, and both store directories exist. -/
def demoWorld : World :=
  ⟨some demoVault, [(mid0.toFilePath, sid1.toFilePath)],
   [sid1.toFilePath, sid2.toFilePath]⟩

/-- A 40-character (hexadecimal) commit sha. -/
def commit40 : String := "aaaaaaaaaaaaaaaaaaaaaaaaaaaaaaaaaaaaaaaa"

def demoCommitURL : URL :=
  "https://raw.githubusercontent.com/acme/widgets/" ++ commit40 ++
    "/modules/foo/metadata.json"

/-- Metadata for version 2.0 of the demo module. -/
def demoMeta2 : Metadata :=
  ⟨"widgets", "2.0", ["acme"], "", [], ⟨"", "", ""⟩, [], ""⟩

/-- An HTTP oracle answering every GET with a 200 response. -/
def demoHttpOk : String → Except String HttpResponse := fun _ => .ok ⟨200, "body"⟩

/-- An HTTP oracle answering every GET with a 404 response (http.Get still
returns it without a transport error). -/
def demoHttp404 : String → Except String HttpResponse :=
  fun _ => .ok ⟨404, "Not Found"⟩

/-- An extraction oracle that succeeds on any body. -/
def demoUntarOk : String → Except String Unit := fun _ => .ok ()

/-- An extraction oracle that fails partway through. -/
def demoUntarFail : String → Except String Unit :=
  fun _ => .error "unexpected EOF"

deriving instance DecidableEq for Except

/-! ## Claim theorems -/

/-- C1: the claim says that after ToggleModuleInVault((author, name, v),
true) returns success, the persisted vault has the module's Enabled field
equal to v.  Evaluating the embedded code at the failing input: toggling
version 2.0 on while 1.0 is enabled returns success, yet the vault written
to disk is the loaded vault unchanged, with Enabled still 1.0 — the
assignment to Enabled mutated only the struct copy returned by
getAllModuleVersions. -/
theorem toggle_enable_does_not_persist_enabled :
    (ToggleModuleInVault demoWorld sid2 true).2 = .ok () ∧
    (ToggleModuleInVault demoWorld sid2 true).1.vaultFile = some demoVault ∧
    demoBV.Enabled ≠ sid2.Version :=
  ⟨rfl, rfl, by decide⟩

/-- C2: the claim says invariant I1 (Enabled empty or a key of the version
mapping) holds after any sequence of operations.  Evaluating the embedded
code at the failing input: removing the enabled version 1.0 from a vault
satisfying I1 returns success, yet the persisted vault violates I1 — the
clear of Enabled mutated only the struct copy while the map deletion went
through the aliased map table. -/
theorem remove_enabled_version_breaks_I1 :
    demoVault.checkI1 = true ∧
    (RemoveModuleInVault demoWorld sid1).2 = .ok () ∧
    ((RemoveModuleInVault demoWorld sid1).1.vaultFile.map Vault.checkI1) =
      some false :=
  ⟨by decide, rfl, by decide⟩

/-- C3: the claim says NewModuleIdentifier "a/b" yields Author=a, Name=b,
NewStoreIdentifier "a/b/v" yields those components, and malformed input
fails with a reported ParseError.  Evaluating the embedded code: the
submatch indices are off by one, so the author field receives the full
match and the name field the author group; NewStoreIdentifier feeds the
full three-segment match back into the two-segment module parser, whose nil
match makes the slice index panic on every input; and malformed input also
panics instead of reporting an error. -/
theorem identifier_parsers_misparse_and_crash :
    NewModuleIdentifier "acme/widgets" = some ⟨"acme/widgets", "acme"⟩ ∧
    NewStoreIdentifier "acme/widgets/1.0" = none ∧
    NewModuleIdentifier "acme" = none :=
  ⟨by decide, by decide, by decide⟩

/-- C4 counterexample: the claim says the classification of a 40-character
hexadecimal ref does not depend on the branch-listing fetch or on network
availability.  At the same concrete URL, a failed branch listing yields a
network error while a successful one yields the Commit classification: the
result does depend on network availability, because the listing is fetched
before any classification. -/
theorem commit_classification_depends_on_network :
    parseGithubRawLink (.error "network unreachable") demoCommitURL =
      .error "network unreachable" ∧
    parseGithubRawLink (.ok ["main"]) demoCommitURL =
      .ok ⟨"acme", "widgets", ⟨"commit", commit40, "", ""⟩, "modules/foo"⟩ ∧
    (Except.error "network unreachable" :
      Except String VersionedGithubPath) ≠
      .ok ⟨"acme", "widgets", ⟨"commit", commit40, "", ""⟩, "modules/foo"⟩ :=
  ⟨rfl, rfl, by decide⟩

/-- C4 amended: for every raw-content URL whose structural match yields a
ref segment of exactly 40 bytes — hexadecimal or not, only the length is
checked — the resolver classifies it as Commit(ref) whenever the
branch-listing round trip succeeds, independently of the fetched branch
names; when the round trip fails, resolution fails with that error even
though the ref has commit shape. -/
theorem commit_classification_syntactic_given_listing
    (u : URL) (bs : List String) (e : String)
    (owner repo v path : String)
    (hm : githubRawMatch u = some (owner, repo, v, path))
    (hv : v.utf8ByteSize = 40) :
    parseGithubRawLink (.ok bs) u =
      .ok ⟨owner, repo, ⟨"commit", v, "", ""⟩, path⟩ ∧
    parseGithubRawLink (.error e) u = .error e := by
  unfold parseGithubRawLink
  rw [hm]
  simp [hv]

/-- A 40-character ref that is not hexadecimal. -/
def ref40z : String := "zzzzzzzzzzzzzzzzzzzzzzzzzzzzzzzzzzzzzzzz"

def demoNonHexURL : URL :=
  "https://raw.githubusercontent.com/acme/widgets/" ++ ref40z ++
    "/modules/foo/metadata.json"

theorem commit_classification_syntactic_given_listing_witness :
    parseGithubRawLink (.ok ["main"]) demoNonHexURL =
      .ok ⟨"acme", "widgets", ⟨"commit", ref40z, "", ""⟩, "modules/foo"⟩ ∧
    parseGithubRawLink (.error "network down") demoNonHexURL =
      .error "network down" :=
  commit_classification_syntactic_given_listing demoNonHexURL ["main"]
    "network down" "acme" "widgets" ref40z "modules/foo" rfl rfl

/-- C5: the claim says that after Toggle(v, true) succeeds with a previous
version's symlink in place, the module path resolves to v's store path, the
previous target being overwritten.  Evaluating the embedded code at the
failing input: with 1.0's symlink occupying the module path, toggling 2.0
on returns success but os.Symlink fails on the existing link and the error
is discarded — the link still points at 1.0's store path, which differs
from 2.0's. -/
theorem toggle_enable_does_not_overwrite_symlink :
    (ToggleModuleInVault demoWorld sid2 true).2 = .ok () ∧
    (ToggleModuleInVault demoWorld sid2 true).1.links =
      [(mid0.toFilePath, sid1.toFilePath)] ∧
    sid1.toFilePath ≠ sid2.toFilePath :=
  ⟨rfl, rfl, by decide⟩

/-! ## Helper lemmas -/

/-- The download step touches only the store tree: the vault file and the
symlinks are unchanged in every branch. -/
theorem downloadModuleInStore_world (branches : Except String (List String))
    (httpGet : String → Except String HttpResponse)
    (untar : String → Except String Unit)
    (url : URL) (sid : StoreIdentifier) (w : World) :
    (downloadModuleInStore branches httpGet untar url sid w).1.vaultFile =
      w.vaultFile ∧
    (downloadModuleInStore branches httpGet untar url sid w).1.links =
      w.links := by
  unfold downloadModuleInStore
  cases hp : parseGithubRawLink branches url with
  | error e => simp
  | ok p =>
    cases hg : httpGet p.getRepoArchiveLink with
    | error e => simp [hg]
    | ok res =>
      cases hu : untar res.body with
      | error e => simp [hg, hu]
      | ok u => simp [hg, hu]

/-- C6: if archive resolution, download or extraction returns an error,
Install returns that error and the manifest file is not written at all:
the vault on disk after the failed run is the vault before it. -/
theorem install_failure_writes_no_record
    (branches : Except String (List String))
    (httpGet : String → Except String HttpResponse)
    (untar : String → Except String Unit)
    (m : Metadata) (sid : StoreIdentifier) (url : URL) (w : World) (e : String)
    (hsid : m.getStoreIdentifier = some sid)
    (hd : (downloadModuleInStore branches httpGet untar url sid w).2.2 =
      .error e) :
    (InstallModuleMURL branches httpGet untar (.ok m) url w).2 =
      Outcome.fail e ∧
    (InstallModuleMURL branches httpGet untar (.ok m) url w).1.vaultFile =
      w.vaultFile := by
  have hv := (downloadModuleInStore_world branches httpGet untar url sid w).1
  rcases hdm : downloadModuleInStore branches httpGet untar url sid w with
    ⟨w', b, r⟩
  rw [hdm] at hd hv
  simp only at hd hv
  subst hd
  simp [InstallModuleMURL, hsid, hdm, hv]

theorem install_failure_writes_no_record_witness :
    (InstallModuleMURL (.ok []) demoHttpOk demoUntarFail (.ok demoMeta2)
      demoCommitURL demoWorld).2 = Outcome.fail "unexpected EOF" ∧
    (InstallModuleMURL (.ok []) demoHttpOk demoUntarFail (.ok demoMeta2)
      demoCommitURL demoWorld).1.vaultFile = demoWorld.vaultFile :=
  install_failure_writes_no_record (.ok []) demoHttpOk demoUntarFail demoMeta2
    sid2 demoCommitURL demoWorld "unexpected EOF" rfl rfl

/-- A world whose vault file exists and is empty: every module is Absent. -/
def emptyVaultWorld : World := ⟨some ⟨[]⟩, [], []⟩

/-- A world on first run: no vault file at all. -/
def firstRunWorld : World := ⟨none, [], []⟩

/-- C7 counterexample: installing a module that is Absent from the vault
does not succeed.  With every network step succeeding, Install into an
empty vault fails with the vault mutation error (setModule requires the
module to be present already) and writes nothing; on first run, with no
vault file, the load error aborts the install instead of an empty vault
being created. -/
theorem install_absent_module_fails_concretely :
    (InstallModuleMURL (.ok []) demoHttpOk demoUntarOk (.ok demoMeta2)
      demoCommitURL emptyVaultWorld).2 = Outcome.fail "failed to mutate vault" ∧
    (InstallModuleMURL (.ok []) demoHttpOk demoUntarOk (.ok demoMeta2)
      demoCommitURL emptyVaultWorld).1.vaultFile = some ⟨[]⟩ ∧
    (InstallModuleMURL (.ok []) demoHttpOk demoUntarOk (.ok demoMeta2)
      demoCommitURL firstRunWorld).2 =
      Outcome.fail "open vault.json: no such file or directory" :=
  ⟨rfl, rfl, rfl⟩

/-- C7 amended: Install of a module whose identifier is Absent from the
vault fails — whatever the network oracles answer — and the manifest file
is left exactly as it was; setModule only updates modules already present,
so a previously-Absent module can never enter the vault through Install. -/
theorem install_of_absent_module_fails
    (branches : Except String (List String))
    (httpGet : String → Except String HttpResponse)
    (untar : String → Except String Unit)
    (url : URL) (w : World) (vault : Vault) (m : Metadata)
    (mid : ModuleIdentifier)
    (hw : w.vaultFile = some vault)
    (hmid : m.getModuleIdentifier = some mid)
    (habs : vault.getAllModuleVersions mid = none) :
    (InstallModuleMURL branches httpGet untar (.ok m) url w).1.vaultFile =
      w.vaultFile ∧
    ∃ e, (InstallModuleMURL branches httpGet untar (.ok m) url w).2 =
      Outcome.fail e := by
  have hsid : m.getStoreIdentifier = some ⟨mid, m.Version⟩ := by
    unfold Metadata.getStoreIdentifier
    rw [hmid]
  have hv := (downloadModuleInStore_world branches httpGet untar url
    ⟨mid, m.Version⟩ w).1
  rcases hdm : downloadModuleInStore branches httpGet untar url
      ⟨mid, m.Version⟩ w with ⟨w', b, r⟩
  rw [hdm] at hv
  simp only at hv
  cases r with
  | error e =>
    refine ⟨?_, e, ?_⟩ <;> simp [InstallModuleMURL, hsid, hdm, hv]
  | ok u =>
    have hv' : w'.vaultFile = some vault := hv.trans hw
    refine ⟨?_, "failed to mutate vault", ?_⟩ <;>
      simp [InstallModuleMURL, hsid, hdm, AddModuleInVault, GetVault, hv', hw,
        Vault.setModule, hmid, habs]

theorem install_of_absent_module_fails_witness :
    (InstallModuleMURL (.ok []) demoHttpOk demoUntarOk (.ok demoMeta2)
      demoCommitURL emptyVaultWorld).1.vaultFile = emptyVaultWorld.vaultFile ∧
    ∃ e, (InstallModuleMURL (.ok []) demoHttpOk demoUntarOk (.ok demoMeta2)
      demoCommitURL emptyVaultWorld).2 = Outcome.fail e :=
  install_of_absent_module_fails (.ok []) demoHttpOk demoUntarOk demoCommitURL
    emptyVaultWorld ⟨[]⟩ demoMeta2 mid0 rfl rfl rfl

/-- Metadata with an empty authors list. -/
def demoMetaNoAuthors : Metadata :=
  ⟨"widgets", "1.0", [], "", [], ⟨"", "", ""⟩, [], ""⟩

/-- Metadata with a non-empty author but an empty version string. -/
def demoMetaEmptyVersion : Metadata :=
  ⟨"widgets", "", ["acme"], "", [], ⟨"", "", ""⟩, [], ""⟩

def sidEmpty : StoreIdentifier := ⟨mid0, ""⟩

/-- C8 counterexample: the claim says metadata with an empty authors list
or empty version makes Install fail with a reported MetadataError before
download.  Evaluating the embedded code: an empty authors list makes
Install crash (the slice index in getAuthor panics) rather than report an
error; an empty version is not rejected up front — download and extraction
run to completion (the store tree grows) and Install fails only afterwards,
at the vault mutation step. -/
theorem install_missing_fields_misbehaves :
    InstallModuleMURL (.ok []) demoHttpOk demoUntarOk (.ok demoMetaNoAuthors)
      demoCommitURL demoWorld = (demoWorld, Outcome.crash) ∧
    (InstallModuleMURL (.ok []) demoHttpOk demoUntarOk
      (.ok demoMetaEmptyVersion) demoCommitURL demoWorld).2 =
      Outcome.fail "failed to mutate vault" ∧
    (InstallModuleMURL (.ok []) demoHttpOk demoUntarOk
      (.ok demoMetaEmptyVersion) demoCommitURL demoWorld).1.store =
      demoWorld.store ++ [sidEmpty.toFilePath] :=
  ⟨rfl, rfl, rfl⟩

/-- A successful download leaves the store tree grown by exactly the target
version's store path. -/
theorem downloadModuleInStore_ok_store (branches : Except String (List String))
    (httpGet : String → Except String HttpResponse)
    (untar : String → Except String Unit)
    (url : URL) (sid : StoreIdentifier) (w : World)
    (h : (downloadModuleInStore branches httpGet untar url sid w).2.2 =
      .ok ()) :
    (downloadModuleInStore branches httpGet untar url sid w).1.store =
      w.store ++ [sid.toFilePath] := by
  unfold downloadModuleInStore at h ⊢
  cases hp : parseGithubRawLink branches url with
  | error e => rw [hp] at h; simp at h
  | ok p =>
    rw [hp] at h
    simp only at h
    cases hg : httpGet p.getRepoArchiveLink with
    | error e => rw [hg] at h; simp at h
    | ok res =>
      rw [hg] at h
      simp only at h
      cases hu : untar res.body with
      | error e => rw [hu] at h; simp at h
      | ok u => simp [hg, hu]

/-- C8 amended: Install performs no up-front validation of the fetched
metadata.  A document with an empty authors list makes Install panic
before any download, leaving the world untouched; a document with a
non-empty author but an empty version is rejected only by the vault
mutation step, after download and extraction have already run and grown
the store tree. -/
theorem install_no_upfront_metadata_validation
    (branches : Except String (List String))
    (httpGet : String → Except String HttpResponse)
    (untar : String → Except String Unit)
    (url : URL) (w : World) (m : Metadata) :
    (m.Authors = [] →
      InstallModuleMURL branches httpGet untar (.ok m) url w =
        (w, Outcome.crash)) ∧
    (∀ a tl vault, m.Authors = a :: tl → m.Version = "" →
      w.vaultFile = some vault →
      (downloadModuleInStore branches httpGet untar url
        ⟨⟨a, m.Name⟩, ""⟩ w).2.2 = .ok () →
      (InstallModuleMURL branches httpGet untar (.ok m) url w).2 =
        Outcome.fail "failed to mutate vault" ∧
      (InstallModuleMURL branches httpGet untar (.ok m) url w).1.store =
        w.store ++ [StoreIdentifier.toFilePath ⟨⟨a, m.Name⟩, ""⟩]) := by
  constructor
  · intro ha
    simp [InstallModuleMURL, Metadata.getStoreIdentifier,
      Metadata.getModuleIdentifier, Metadata.getAuthor, ha]
  · intro a tl vault ha hver hw hd
    have hve : m.Version.isEmpty = true := by rw [hver]; decide
    have hsid : m.getStoreIdentifier = some ⟨⟨a, m.Name⟩, ""⟩ := by
      simp [Metadata.getStoreIdentifier, Metadata.getModuleIdentifier,
        Metadata.getAuthor, ha, hver]
    have hst := downloadModuleInStore_ok_store branches httpGet untar url
      ⟨⟨a, m.Name⟩, ""⟩ w hd
    have hvf := (downloadModuleInStore_world branches httpGet untar url
      ⟨⟨a, m.Name⟩, ""⟩ w).1
    rcases hdm : downloadModuleInStore branches httpGet untar url
        ⟨⟨a, m.Name⟩, ""⟩ w with ⟨w', b, r⟩
    rw [hdm] at hd hst hvf
    simp only at hd hst hvf
    subst hd
    have hvf' : w'.vaultFile = some vault := hvf.trans hw
    constructor <;>
      simp [InstallModuleMURL, hsid, hdm, Metadata.getModuleIdentifier,
        Metadata.getAuthor, ha, AddModuleInVault, GetVault, hvf',
        Vault.setModule, hve, hst]

theorem install_no_upfront_metadata_validation_witness :
    InstallModuleMURL (.ok []) demoHttpOk demoUntarOk (.ok demoMetaNoAuthors)
      demoCommitURL demoWorld = (demoWorld, Outcome.crash) ∧
    (InstallModuleMURL (.ok []) demoHttpOk demoUntarOk
      (.ok demoMetaEmptyVersion) demoCommitURL demoWorld).2 =
      Outcome.fail "failed to mutate vault" ∧
    (InstallModuleMURL (.ok []) demoHttpOk demoUntarOk
      (.ok demoMetaEmptyVersion) demoCommitURL demoWorld).1.store =
      demoWorld.store ++ [StoreIdentifier.toFilePath ⟨⟨"acme", "widgets"⟩, ""⟩] :=
  ⟨(install_no_upfront_metadata_validation (.ok []) demoHttpOk demoUntarOk
      demoCommitURL demoWorld demoMetaNoAuthors).1 rfl,
   (install_no_upfront_metadata_validation (.ok []) demoHttpOk demoUntarOk
      demoCommitURL demoWorld demoMetaEmptyVersion).2 "acme" [] demoVault
      rfl rfl rfl rfl⟩

/-- C9 counterexample: the claim says a non-success HTTP response fails the
download with NetworkError and extraction never runs on its body.
Evaluating the embedded code: with a 404 archive response, extraction is
attempted on the response body and — the body happening to untar — the
whole download reports success. -/
theorem download_ignores_http_status :
    (downloadModuleInStore (.ok []) demoHttp404 demoUntarOk demoCommitURL
      sid2 demoWorld).2 = (true, .ok ()) :=
  rfl

/-- C9 amended: only transport failures abort the download; the status code
of the archive response is never inspected.  Whenever the GET returns a
response — of any status — the body is handed to extraction and the
operation's outcome is exactly the extraction outcome. -/
theorem download_outcome_is_extraction_outcome
    (branches : Except String (List String))
    (url : URL) (sid : StoreIdentifier) (w : World)
    (res : HttpResponse) (untar : String → Except String Unit)
    (p : VersionedGithubPath)
    (hp : parseGithubRawLink branches url = .ok p) :
    (downloadModuleInStore branches (fun _ => .ok res) untar url sid w).2.1 =
      true ∧
    (downloadModuleInStore branches (fun _ => .ok res) untar url sid w).2.2 =
      untar res.body := by
  unfold downloadModuleInStore
  rw [hp]
  cases hu : untar res.body with
  | error e => simp [hu]
  | ok u => simp [hu]

theorem download_outcome_is_extraction_outcome_witness :
    (downloadModuleInStore (.ok []) (fun _ => .ok ⟨404, "Not Found"⟩)
      demoUntarOk demoCommitURL sid2 demoWorld).2.1 = true ∧
    (downloadModuleInStore (.ok []) (fun _ => .ok ⟨404, "Not Found"⟩)
      demoUntarOk demoCommitURL sid2 demoWorld).2.2 =
      demoUntarOk "Not Found" :=
  download_outcome_is_extraction_outcome (.ok []) demoCommitURL sid2 demoWorld
    ⟨404, "Not Found"⟩ demoUntarOk
    ⟨"acme", "widgets", ⟨"commit", commit40, "", ""⟩, "modules/foo"⟩ rfl

/-! ## Association-list lemmas for C10 -/

/-- Updating the value at a key through a key-preserving map commutes with
lookup. -/
theorem alGet_map_update {α β : Type} [DecidableEq α] (l : List (α × β))
    (k : α) (g : β → β) :
    alGet (l.map (fun p => if p.1 = k then (p.1, g p.2) else p)) k =
      (alGet l k).map g := by
  induction l with
  | nil => rfl
  | cons p t ih =>
    by_cases h : p.1 = k
    · simp [alGet, List.find?_cons, h]
    · simp only [List.map_cons, if_neg h]
      unfold alGet at ih ⊢
      rw [List.find?_cons_of_neg _ (by simp [h]),
        List.find?_cons_of_neg _ (by simp [h])]
      exact ih

/-- Erasing a key that is not present leaves the list unchanged. -/
theorem alErase_of_not_mem {α β : Type} [DecidableEq α] (m : List (α × β))
    (k : α) (h : alGet m k = none) : alErase m k = m := by
  unfold alGet at h
  unfold alErase
  rw [Option.map_eq_none'] at h
  rw [List.filter_eq_self]
  intro p hp
  have hk := List.find?_eq_none.mp h p hp
  simpa using hk

/-- Lookup after an aliased-map update on the entry that is present. -/
theorem getAllModuleVersions_updateMetadatas (v : Vault)
    (mid : ModuleIdentifier)
    (f : List (Version × MetadataURL) → List (Version × MetadataURL))
    (bv : ByVersions) (h : v.getAllModuleVersions mid = some bv) :
    (v.updateMetadatas mid f).getAllModuleVersions mid =
      some ⟨bv.Enabled, f bv.Metadatas⟩ := by
  unfold Vault.getAllModuleVersions at h ⊢
  unfold Vault.updateMetadatas
  rw [alGet_map_update]
  cases ha : alGet v.Modules mid.Author with
  | none => rw [ha] at h; exact absurd h (by simp)
  | some names =>
    rw [ha] at h
    simp only at h
    simp only [Option.map_some']
    refine Eq.trans (alGet_map_update names mid.Name
      (fun b => ⟨b.Enabled, f b.Metadatas⟩)) ?_
    simp [h]

/-- C10: removing a version that a present module does not hold, and which
is not the enabled one, succeeds: the delete on the version mapping is a
no-op (the module's version set is unchanged), the vault is rewritten, the
symlinks are untouched and the (possibly nonexistent) store directory is
removed. -/
theorem remove_of_absent_version_is_noop_success
    (w : World) (vault : Vault) (bv : ByVersions)
    (identifier : StoreIdentifier)
    (hw : w.vaultFile = some vault)
    (hbv : vault.getAllModuleVersions identifier.mid = some bv)
    (hen : ¬ bv.Enabled = identifier.Version)
    (habs : alGet bv.Metadatas identifier.Version = none) :
    (DeleteModule w identifier).2 = .ok () ∧
    (DeleteModule w identifier).1.vaultFile =
      some (vault.updateMetadatas identifier.mid
        (fun ms => alErase ms identifier.Version)) ∧
    (vault.updateMetadatas identifier.mid
      (fun ms => alErase ms identifier.Version)).getAllModuleVersions
        identifier.mid = some bv ∧
    (DeleteModule w identifier).1.links = w.links ∧
    (DeleteModule w identifier).1.store =
      w.store.filter (fun p => ¬ p = identifier.toFilePath) := by
  have hkeep : (vault.updateMetadatas identifier.mid
      (fun ms => alErase ms identifier.Version)).getAllModuleVersions
        identifier.mid = some bv := by
    rw [getAllModuleVersions_updateMetadatas vault identifier.mid _ bv hbv,
      alErase_of_not_mem _ _ habs]
  refine ⟨?_, ?_, hkeep, ?_, ?_⟩ <;>
    simp [DeleteModule, RemoveModuleInVault, GetVault, hw, hbv, hen,
      SetVault, deleteModuleInStore]

/-- A version neither installed nor enabled for the demo module. -/
def sid3 : StoreIdentifier := ⟨mid0, "3.0"⟩

theorem remove_of_absent_version_is_noop_success_witness :
    (DeleteModule demoWorld sid3).2 = .ok () ∧
    (DeleteModule demoWorld sid3).1.vaultFile =
      some (demoVault.updateMetadatas sid3.mid
        (fun ms => alErase ms sid3.Version)) ∧
    (demoVault.updateMetadatas sid3.mid
      (fun ms => alErase ms sid3.Version)).getAllModuleVersions sid3.mid =
      some demoBV ∧
    (DeleteModule demoWorld sid3).1.links = demoWorld.links ∧
    (DeleteModule demoWorld sid3).1.store =
      demoWorld.store.filter (fun p => ¬ p = sid3.toFilePath) :=
  remove_of_absent_version_is_noop_success demoWorld demoVault demoBV sid3
    rfl rfl (by decide) rfl

end Bespoke
